import Mathlib

/-!
Shallow embedding of the tutoring-chat backend core
(`backend/app/api/messages.py`, `backend/app/api/chats.py`,
`backend/app/api/feedbacks.py`, `backend/app/services/orchestrator.py`,
`backend/app/services/ai_client.py`) together with theorems checking the
design-spec claims about pagination, context building, orchestration,
rating aggregation and chat creation.

Timestamps are modelled as natural numbers; the relational store is a list
of rows kept in insertion order; an SQL `ORDER BY` is modelled as a stable
sort on the given key, so rows with equal keys keep table order.
-/

/-- A JSON object, reduced to its string-valued entries (attachments and
message metadata are opaque payloads for every claim considered here). -/
abbrev JsonDict := List (String × String)

/-- Row of the `messages` table (`app/models/message.py`). -/
structure Msg where
  id : Nat
  chat_id : Nat
  role : String
  content : String
  attachments : Option (List JsonDict)
  message_metadata : Option JsonDict
  created_at : Nat
deriving Repr, DecidableEq

/-- Row of the `chats` table (`app/models/chat.py`). -/
structure ChatRow where
  id : Nat
  user_id : Nat
  tutor_id : Nat
  custom_name : Option String
  last_message_at : Option Nat
  created_at : Nat
deriving Repr, DecidableEq

/-- Row of the `tutors` table (`app/models/tutor.py`); only the fields the
claims touch.  The aggregate `rating` column (DECIMAL(3,2)) is modelled as a
rational number. -/
structure Tutor where
  id : Nat
  name : String
  model_id : String
  system_prompt : String
  rating : ℚ
  total_feedbacks : Nat
  is_active : Bool
deriving Repr, DecidableEq

/-- Row of the `feedbacks` table (`app/models/feedback.py`). -/
structure FeedbackRow where
  id : Nat
  chat_id : Nat
  user_id : Nat
  tutor_id : Nat
  message_id : Option Nat
  feedback_type : String
  rating : Option Nat
  positive_text : Option String
  improvement_text : Option String
  quick_reaction : Option String
  allow_training : Bool
  processed : Bool
deriving Repr, DecidableEq

/-- The exception taxonomy raised by `AIClient` (`ai_client.py`) plus Python's
`AttributeError`, which a call to an undefined method raises. -/
inductive PyError where
  | attributeError (attr : String)
  | timeoutError (msg : String)
  | httpStatusError (code : Nat) (body : String)
  | transportError (msg : String)
deriving Repr, DecidableEq

/-- Message attached to a Python exception, as interpolated by
`str(e)` in the orchestrator's handler. -/
def PyError.toMessage : PyError → String
  | .attributeError a => "AIClient object has no attribute " ++ a
  | .timeoutError m => m
  | .httpStatusError c m => "AI Core returned error: " ++ toString c ++ " - " ++ m
  | .transportError m => "Failed to connect to AI Core: " ++ m

/-- FastAPI `HTTPException` outcomes of the endpoints. -/
inductive HttpError where
  | notFound (detail : String)
  | internalError (detail : String)
deriving Repr, DecidableEq

/-- One `{role, content}` entry of an OpenAI-style prompt. -/
structure ChatEntry where
  role : String
  content : String
deriving Repr, DecidableEq

/-! ## SQL ordering on the messages table

`ORDER BY created_at DESC` / `ORDER BY created_at` from
`app/api/messages.py`.  The source orders by `created_at` only — there is no
identifier tiebreak — so rows with equal timestamps are returned in table
order (stable sort). -/

/-- Comparison used for `ORDER BY messages.created_at DESC`. -/
def createdDescLe (a b : Msg) : Prop := b.created_at ≤ a.created_at

/-- Comparison used for `ORDER BY messages.created_at` (ascending). -/
def createdAscLe (a b : Msg) : Prop := a.created_at ≤ b.created_at

instance : DecidableRel createdDescLe := fun _ _ => Nat.decLe _ _
instance : DecidableRel createdAscLe := fun _ _ => Nat.decLe _ _
instance : IsTotal Msg createdDescLe := ⟨fun _ _ => Nat.le_total _ _⟩
instance : IsTotal Msg createdAscLe := ⟨fun _ _ => Nat.le_total _ _⟩
instance : IsTrans Msg createdDescLe := ⟨fun _ _ _ h h2 => Nat.le_trans h2 h⟩
instance : IsTrans Msg createdAscLe := ⟨fun _ _ _ h h2 => Nat.le_trans h h2⟩

/-- `ORDER BY created_at DESC` (newest first; ties keep table order). -/
def orderByCreatedDesc (rows : List Msg) : List Msg :=
  List.insertionSort createdDescLe rows

/-- `ORDER BY created_at` ascending (oldest first; ties keep table order). -/
def orderByCreatedAsc (rows : List Msg) : List Msg :=
  List.insertionSort createdAscLe rows

/-- `WHERE Message.chat_id == chat_id`. -/
def chatFilter (msgs : List Msg) (chat_id : Nat) : List Msg :=
  msgs.filter fun m => m.chat_id == chat_id

/-- The optional cursor condition of `get_chat_messages`.  The source guards
it with Python truthiness (`if before_id:`), so `before_id = 0` behaves like
no cursor. -/
def applyBeforeFilter (rows : List Msg) (before_id : Option Nat) : List Msg :=
  match before_id with
  | some b => if b = 0 then rows else rows.filter fun m => m.id < b
  | none => rows

/-- Response shape of `GET /api/chats/{chat_id}/messages`. -/
structure PageResult where
  messages : List Msg
  has_more : Bool
  total : Nat
deriving Repr, DecidableEq

/-- Pagination read of `app/api/messages.py::get_chat_messages` (the windowed
query, `has_more` detection, reversal, and the separate full count); the
ownership check on the chat row happens before this logic and is orthogonal
to every claim about it. -/
def get_chat_messages (msgs : List Msg) (chat_id : Nat) (limit : Nat)
    (before_id : Option Nat) : PageResult :=
  let query := applyBeforeFilter (chatFilter msgs chat_id) before_id
  let rows := (orderByCreatedDesc query).take (limit + 1)
  let has_more : Bool := decide (limit < rows.length)
  let page := if has_more then rows.take limit else rows
  { messages := page.reverse
    has_more := has_more
    total := (chatFilter msgs chat_id).length }

/-- A second pagination read that follows the specification text instead of
the source: it orders by creation time descending *with the identifier as
tiebreak*.  Used only to compare against `get_chat_messages`. -/
def specOrderDescIdTiebreak (a b : Msg) : Prop :=
  b.created_at < a.created_at ∨ (b.created_at = a.created_at ∧ b.id ≤ a.id)

instance : DecidableRel specOrderDescIdTiebreak := fun _ _ => by
  unfold specOrderDescIdTiebreak; infer_instance

/-- Pagination as worded by the spec (identifier tiebreak added). -/
def get_chat_messages_spec (msgs : List Msg) (chat_id : Nat) (limit : Nat)
    (before_id : Option Nat) : PageResult :=
  let query := applyBeforeFilter (chatFilter msgs chat_id) before_id
  let rows := (List.insertionSort specOrderDescIdTiebreak query).take (limit + 1)
  let has_more : Bool := decide (limit < rows.length)
  let page := if has_more then rows.take limit else rows
  { messages := page.reverse
    has_more := has_more
    total := (chatFilter msgs chat_id).length }

/-! ## AIClient and the orchestrator (`services/ai_client.py`,
`services/orchestrator.py`) -/

/-- The methods the `AIClient` class actually defines.  `chat_completion`,
which the orchestrator calls, is not among them, so Python attribute lookup
raises `AttributeError` before any network request is attempted. -/
def AIClient.methodNames : List String := ["generate_response", "health_check"]

/-- Dynamic dispatch of `self.ai_client.<attr>(...)`: the call result (an
oracle for what the external inference service would return) is reached only
when the attribute exists; otherwise the lookup raises. -/
def AIClient.getattrCall (attr : String) (callResult : Except PyError String) :
    Except PyError String :=
  if AIClient.methodNames.contains attr then callResult
  else Except.error (PyError.attributeError attr)

/-- Projection of a stored message to its OpenAI-format entry. -/
def msgToEntry (m : Msg) : ChatEntry := ChatEntry.mk m.role m.content

/-- `Orchestrator._format_message_history`: keep only the last
`max_messages` rows (`messages[-max_messages:]`) and project to role/content
pairs, preserving order. -/
def formatMessageHistory (messages : List Msg) (max_messages : Nat) : List ChatEntry :=
  let recent :=
    if messages.length > max_messages then messages.drop (messages.length - max_messages)
    else messages
  recent.map msgToEntry

/-- `Orchestrator._build_system_prompt`: the tutor's stored prompt, or the
fallback naming the tutor when the stored prompt is empty. -/
def buildSystemPrompt (tutor : Tutor) : String :=
  if tutor.system_prompt ≠ "" then tutor.system_prompt
  else
    "Ты — репетитор по курсу \x22" ++ tutor.name ++ "\x22.\n" ++
    "Помогай пользователю учиться, объясняя просто и понятно.\n" ++
    "Всегда приводи примеры кода или формулы.\n" ++
    "Если ученик затрудняется, задай наводящий вопрос вместо готового ответа."

/-- `Orchestrator._build_rag_context`: the RAG extension point always
returns `None` in the source. -/
def buildRagContext (_tutor : Tutor) : Option String := none

/-- Steps 1–4 of `Orchestrator.process_user_message`: system entry, optional
RAG entry, windowed history, then the new user message last. -/
def buildPromptMessages (tutor : Tutor) (user_message : String)
    (message_history : List Msg) : List ChatEntry :=
  let formatted_history := formatMessageHistory message_history 10
  let base := [ChatEntry.mk "system" (buildSystemPrompt tutor)]
  let base :=
    match buildRagContext tutor with
    | some ctx =>
        base ++ [ChatEntry.mk "system" ("Релевантная информация из базы знаний:\n\n" ++ ctx)]
    | none => base
  base ++ formatted_history ++ [ChatEntry.mk "user" user_message]

/-- Leading text of the graceful-degrade reply built in the orchestrator's
exception handler. -/
def apologyHead : String := "❌ Извините, репетитор временно недоступен."

/-- Step 5 of `Orchestrator.process_user_message`: attempt
`self.ai_client.chat_completion(...)`; any exception is caught and turned
into the apology text. -/
def runInference (callResult : Except PyError String) (_prompt : List ChatEntry) : String :=
  match AIClient.getattrCall "chat_completion" callResult with
  | Except.ok response => response
  | Except.error e => apologyHead ++ " Ошибка: " ++ e.toMessage

/-- `Orchestrator.process_user_message`.  `callResult` stands for what the
external service would answer if the dispatched method existed; `chat_id`
and `attachments` are accepted and unused, as in the source. -/
def processUserMessage (callResult : Except PyError String) (_chat_id : Nat)
    (tutor : Tutor) (user_message : String) (message_history : List Msg)
    (_attachments : Option (List JsonDict)) : String :=
  runInference callResult (buildPromptMessages tutor user_message message_history)

/-! ## The send_message endpoint (`app/api/messages.py::send_message`) -/

/-- Database state shared by the message endpoints. -/
structure DB where
  chats : List ChatRow
  tutors : List Tutor
  messages : List Msg
  next_message_id : Nat
  clock : Nat
deriving Repr, DecidableEq

/-- Well-formedness of the store as produced by insertions: primary keys are
unique and below the allocator, and creation timestamps agree with insertion
order and are below the clock. -/
def DB.WF (db : DB) : Prop :=
  (db.messages.map Msg.id).Nodup ∧
  (∀ a ∈ db.messages, ∀ b ∈ db.messages, (a.id < b.id ↔ a.created_at < b.created_at)) ∧
  (∀ m ∈ db.messages, m.id < db.next_message_id) ∧
  (∀ m ∈ db.messages, m.created_at < db.clock)

instance (db : DB) : Decidable db.WF := by unfold DB.WF; infer_instance

/-- Observable steps of one `send_message` execution, each paired with the
content of the messages table at the moment the step runs. -/
inductive TraceEvent where
  | commitUserMessage (id : Nat)
  | fetchHistoryStep
  | inferenceAttempt
  | commitAssistantMessage (id : Nat)
deriving Repr, DecidableEq

/-- Result of one `send_message` execution: final store, HTTP-level outcome,
the prompt handed to the inference layer (when reached), and the event
trace. -/
structure SendResult where
  db : DB
  response : Except HttpError (Msg × Msg)
  prompt : Option (List ChatEntry)
  trace : List (TraceEvent × List Msg)
deriving Repr

/-- Chat ownership lookup shared by the message endpoints. -/
def findChat (db : DB) (chat_id user_id : Nat) : Option ChatRow :=
  db.chats.find? fun c => c.id == chat_id && c.user_id == user_id

/-- Tutor lookup of `send_message` step 2. -/
def findTutor (db : DB) (tutor_id : Nat) : Option Tutor :=
  db.tutors.find? fun t => t.id == tutor_id

/-- Step 4 of `send_message`: the context query
`ORDER BY created_at LIMIT 20` — ascending, so it takes the chat's first
(oldest) twenty rows. -/
def fetchHistory (msgs : List Msg) (chat_id : Nat) : List Msg :=
  (orderByCreatedAsc (chatFilter msgs chat_id)).take 20

/-- `POST /api/chats/{chat_id}/messages`.  The user message is committed in
step 3, before the history fetch and the inference attempt; the orchestrator
never raises (its handler swallows every exception and returns the apology
text), so the `except` branch of step 5 is dead code and the assistant row
is always committed. -/
def newUserMsg (db : DB) (chat_id : Nat) (content : String)
    (attachments : Option (List JsonDict)) : Msg :=
  { id := db.next_message_id, chat_id := chat_id, role := "user",
    content := content, attachments := attachments,
    message_metadata := none, created_at := db.clock }

def send_message (db : DB) (chat_id user_id : Nat) (content : String)
    (attachments : Option (List JsonDict)) (callResult : Except PyError String) :
    SendResult :=
  match findChat db chat_id user_id with
  | none => { db := db, response := Except.error (HttpError.notFound "Chat not found"),
              prompt := none, trace := [] }
  | some chat =>
    match findTutor db chat.tutor_id with
    | none => { db := db, response := Except.error (HttpError.internalError "Tutor not found"),
                prompt := none, trace := [] }
    | some tutor =>
      let user_message : Msg := newUserMsg db chat_id content attachments
      let db1 : DB :=
        { db with messages := db.messages ++ [user_message],
                  next_message_id := db.next_message_id + 1,
                  clock := db.clock + 1 }
      let message_history := fetchHistory db1.messages chat_id
      let promptMsgs := buildPromptMessages tutor content message_history
      let ai_response_content := runInference callResult promptMsgs
      let ai_message : Msg :=
        { id := db1.next_message_id, chat_id := chat_id, role := "assistant",
          content := ai_response_content, attachments := none,
          message_metadata := some [("model_id", tutor.model_id)],
          created_at := db1.clock }
      let db2 : DB :=
        { db1 with
            messages := db1.messages ++ [ai_message],
            next_message_id := db1.next_message_id + 1,
            clock := db1.clock + 1,
            chats := db1.chats.map fun c =>
              if c.id == chat_id then { c with last_message_at := some db1.clock } else c }
      { db := db2
        response := Except.ok (user_message, ai_message)
        prompt := some promptMsgs
        trace := [(TraceEvent.commitUserMessage user_message.id, db1.messages),
                  (TraceEvent.fetchHistoryStep, db1.messages),
                  (TraceEvent.inferenceAttempt, db1.messages),
                  (TraceEvent.commitAssistantMessage ai_message.id, db2.messages)] }

/-! ## Feedback and rating aggregation (`app/api/feedbacks.py`) -/

/-- The rows `update_tutor_rating` aggregates over: this tutor's feedback
with a non-null rating. -/
def ratedFeedbacks (feedbacks : List FeedbackRow) (tutor_id : Nat) : List FeedbackRow :=
  feedbacks.filter fun f => f.tutor_id == tutor_id && f.rating.isSome

/-- Sum of the ratings of a list of feedback rows, as a rational. -/
def ratingSum (l : List FeedbackRow) : ℚ :=
  (l.map fun f => ((f.rating.getD 0 : ℕ) : ℚ)).sum

/-- Rounding to the nearest integer with ties going to the even neighbour
(banker's rounding), as Python's builtin `round` does. -/
def roundHalfEven (q : ℚ) : ℤ :=
  if q - ⌊q⌋ < 1 / 2 then ⌊q⌋
  else if 1 / 2 < q - ⌊q⌋ then ⌊q⌋ + 1
  else if ⌊q⌋ % 2 = 0 then ⌊q⌋ else ⌊q⌋ + 1

/-- `round(x, 2)`: rounding to two decimal places with Python's
half-to-even tie behaviour (e.g. 4.625 rounds to 4.62, not 4.63), modelled
exactly on rationals. -/
def roundTo2 (q : ℚ) : ℚ := ((roundHalfEven ((100 : ℚ) * q) : ℤ) : ℚ) / 100

/-- The rating value written by `update_tutor_rating`: `AVG` returns NULL
over zero rows, and `if avg_rating` is Python truthiness, so both a NULL and
a zero average reset the rating to 0; otherwise the mean is rounded to two
decimals. -/
def recomputedRating (feedbacks : List FeedbackRow) (tutor_id : Nat) : ℚ :=
  let rated := ratedFeedbacks feedbacks tutor_id
  let avg_rating : Option ℚ :=
    if rated.length = 0 then none else some (ratingSum rated / (rated.length : ℚ))
  match avg_rating with
  | some a => if a ≠ 0 then roundTo2 a else 0
  | none => 0

/-- `update_tutor_rating`: full recomputation of the tutor's aggregate
fields from all of its rated feedback rows. -/
def update_tutor_rating (tutors : List Tutor) (feedbacks : List FeedbackRow)
    (tutor_id : Nat) : List Tutor :=
  match tutors.find? fun t => t.id == tutor_id with
  | none => tutors
  | some _ =>
    tutors.map fun t =>
      if t.id == tutor_id then
        { t with rating := recomputedRating feedbacks tutor_id,
                 total_feedbacks := (ratedFeedbacks feedbacks tutor_id).length }
      else t

/-- `mark_feedback_for_training`: flip `processed` to false when the row
allows training. -/
def mark_feedback_for_training (feedbacks : List FeedbackRow) (feedback_id : Nat) :
    List FeedbackRow :=
  match feedbacks.find? fun f => f.id == feedback_id with
  | none => feedbacks
  | some fb =>
    if fb.allow_training then
      feedbacks.map fun f =>
        if f.id == feedback_id then { f with processed := false } else f
    else feedbacks

/-- Request body of `POST /api/feedbacks` (`schemas/feedback.py`). -/
structure FeedbackCreate where
  chat_id : Nat
  message_id : Option Nat
  feedback_type : String
  rating : Option Nat
  positive_text : Option String
  improvement_text : Option String
  allow_training : Bool
deriving Repr, DecidableEq

/-- Application state touched by the feedback endpoint. -/
structure AppState where
  chats : List ChatRow
  tutors : List Tutor
  feedbacks : List FeedbackRow
  next_feedback_id : Nat
deriving Repr, DecidableEq

/-- Python truthiness of `feedback_data.rating` guarding the recompute. -/
def ratingTruthy : Option Nat → Bool
  | some r => r != 0
  | none => false

/-- The `Feedback` row inserted by `create_detailed_feedback`. -/
def newFeedbackRow (st : AppState) (user_id : Nat) (d : FeedbackCreate)
    (tutor_id : Nat) : FeedbackRow :=
  { id := st.next_feedback_id, chat_id := d.chat_id, user_id := user_id,
    tutor_id := tutor_id, message_id := d.message_id,
    feedback_type := d.feedback_type, rating := d.rating,
    positive_text := d.positive_text, improvement_text := d.improvement_text,
    quick_reaction := none, allow_training := d.allow_training,
    processed := false }

/-- `create_detailed_feedback`: insert the row, recompute the tutor's
aggregates when a (truthy) rating was given, then mark the row for
training. -/
def create_detailed_feedback (st : AppState) (user_id : Nat) (d : FeedbackCreate) :
    AppState × Except HttpError FeedbackRow :=
  match st.chats.find? fun c => c.id == d.chat_id && c.user_id == user_id with
  | none => (st, Except.error (HttpError.notFound "Chat not found"))
  | some chat =>
    let new_feedback : FeedbackRow := newFeedbackRow st user_id d chat.tutor_id
    let st1 : AppState :=
      { st with feedbacks := st.feedbacks ++ [new_feedback],
                next_feedback_id := st.next_feedback_id + 1 }
    let st2 : AppState :=
      if ratingTruthy d.rating then
        { st1 with tutors := update_tutor_rating st1.tutors st1.feedbacks chat.tutor_id }
      else st1
    let st3 : AppState :=
      { st2 with feedbacks := mark_feedback_for_training st2.feedbacks new_feedback.id }
    (st3, Except.ok new_feedback)

/-! ## Chat creation (`app/api/chats.py::create_chat`) -/

/-- State touched by chat creation. -/
structure ChatsState where
  chats : List ChatRow
  tutors : List Tutor
  next_chat_id : Nat
deriving Repr, DecidableEq

/-- At most one chat per (user, tutor) pair. -/
def chatPairUnique (chats : List ChatRow) : Prop :=
  chats.Pairwise fun a b => ¬(a.user_id = b.user_id ∧ a.tutor_id = b.tutor_id)

instance (chats : List ChatRow) : Decidable (chatPairUnique chats) := by
  unfold chatPairUnique; infer_instance

/-- `POST /api/chats`: verify the tutor, return the existing chat of the
(user, tutor) pair when there is one, otherwise insert a fresh row. -/
def create_chat (st : ChatsState) (user_id tutor_id now : Nat) :
    ChatsState × Except HttpError ChatRow :=
  match st.tutors.find? fun t => t.id == tutor_id with
  | none => (st, Except.error (HttpError.notFound "Tutor not found or inactive"))
  | some tutor =>
    if !tutor.is_active then
      (st, Except.error (HttpError.notFound "Tutor not found or inactive"))
    else
      match st.chats.find? fun c => c.user_id == user_id && c.tutor_id == tutor_id with
      | some existing_chat => (st, Except.ok existing_chat)
      | none =>
        let new_chat : ChatRow :=
          { id := st.next_chat_id, user_id := user_id, tutor_id := tutor_id,
            custom_name := none, last_message_at := none, created_at := now }
        ({ st with chats := st.chats ++ [new_chat], next_chat_id := st.next_chat_id + 1 },
         Except.ok new_chat)

/-! ## Concrete fixtures used by witnesses and counterexamples -/

/-- A tutor row used by the concrete scenarios. -/
def tutor0 : Tutor :=
  { id := 1, name := "Python", model_id := "tutor_python_v1",
    system_prompt := "Ты — репетитор по Python.", rating := 0,
    total_feedbacks := 0, is_active := true }

/-- A chat row owned by user 1 with tutor 1. -/
def chat0 : ChatRow :=
  { id := 1, user_id := 1, tutor_id := 1, custom_name := none,
    last_message_at := none, created_at := 0 }

/-- A store holding one empty chat. -/
def db0 : DB :=
  { chats := [chat0], tutors := [tutor0], messages := [],
    next_message_id := 1, clock := 1 }

/-- A message of chat 1 with identifier and timestamp `i`. -/
def mkMsg (i : Nat) : Msg :=
  { id := i, chat_id := 1, role := "user", content := "m",
    attachments := none, message_metadata := none, created_at := i }

/-- Two rows of chat 1 sharing one creation timestamp. -/
def tie1 : Msg :=
  { id := 1, chat_id := 1, role := "user", content := "a",
    attachments := none, message_metadata := none, created_at := 5 }

/-- Second row with the same timestamp as `tie1` but larger identifier. -/
def tie2 : Msg :=
  { id := 2, chat_id := 1, role := "assistant", content := "b",
    attachments := none, message_metadata := none, created_at := 5 }

/-- Concrete state for the chat-creation witness. -/
def chatsSt0 : ChatsState := { chats := [chat0], tutors := [tutor0], next_chat_id := 2 }

/-- Existing rated feedback row (5 stars) for tutor 1. -/
def fb5a : FeedbackRow :=
  { id := 1, chat_id := 1, user_id := 1, tutor_id := 1, message_id := none,
    feedback_type := "detailed", rating := some 5, positive_text := none,
    improvement_text := none, quick_reaction := none, allow_training := false,
    processed := true }

/-- Second existing rated feedback row (5 stars) for tutor 1. -/
def fb5b : FeedbackRow :=
  { id := 2, chat_id := 1, user_id := 1, tutor_id := 1, message_id := none,
    feedback_type := "detailed", rating := some 5, positive_text := none,
    improvement_text := none, quick_reaction := none, allow_training := false,
    processed := true }

/-- Application state for the rating example: tutor 1, chat (1,1), two
5-star feedback rows already stored. -/
def exSt : AppState :=
  { chats := [chat0], tutors := [tutor0], feedbacks := [fb5a, fb5b],
    next_feedback_id := 3 }

/-- Request creating a third, 4-star feedback. -/
def exD : FeedbackCreate :=
  { chat_id := 1, message_id := none, feedback_type := "detailed",
    rating := some 4, positive_text := none, improvement_text := none,
    allow_training := true }

/-- Chat 1 holding 21 messages with identifiers and timestamps 1..21. -/
def msgs21 : List Msg := (List.range 21).map fun i => mkMsg (i + 1)

/-! ## Helper lemmas -/

/-- Attribute lookup of `chat_completion` on `AIClient` always raises, no
matter what the external service would have answered. -/
theorem getattr_chat_completion (c : Except PyError String) :
    AIClient.getattrCall "chat_completion" c =
      Except.error (PyError.attributeError "chat_completion") := rfl

/-- Every inference attempt collapses to the apology text. -/
theorem runInference_eq (c : Except PyError String) (p : List ChatEntry) :
    runInference c p =
      apologyHead ++ " Ошибка: " ++ (PyError.attributeError "chat_completion").toMessage := by
  unfold runInference
  rw [getattr_chat_completion]

/-- Closed form of the prompt built by the orchestrator: system entry, the
last `min |history| 10` history entries, then the new user entry. -/
theorem buildPromptMessages_eq (tutor : Tutor) (um : String) (h : List Msg) :
    buildPromptMessages tutor um h =
      ChatEntry.mk "system" (buildSystemPrompt tutor) ::
        ((h.drop (h.length - 10)).map msgToEntry ++ [ChatEntry.mk "user" um]) := by
  unfold buildPromptMessages formatMessageHistory buildRagContext
  by_cases hl : h.length > 10
  · simp [hl]
  · have h0 : h.length - 10 = 0 := by omega
    simp [hl, h0]

/-- The windowed history portion of the prompt has length `min |history| 10`. -/
theorem promptWindow_length (h : List Msg) :
    ((h.drop (h.length - 10)).map msgToEntry).length = min h.length 10 := by
  simp [List.length_drop]
  omega

/-- C2: for every input, `Orchestrator.process_user_message` returns the
graceful-degrade apology string (beginning with
"❌ Извините, репетитор временно недоступен.") and never text produced by the
inference backend: the success branch calls `self.ai_client.chat_completion`,
which `AIClient` does not define, so the handler is always taken and the
result is one fixed string independent of the call outcome. -/
theorem processUserMessage_always_apologizes (callResult : Except PyError String)
    (cid : Nat) (tutor : Tutor) (um : String) (hist : List Msg)
    (atts : Option (List JsonDict)) :
    processUserMessage callResult cid tutor um hist atts =
      apologyHead ++ " Ошибка: " ++ (PyError.attributeError "chat_completion").toMessage ∧
    ∃ rest, processUserMessage callResult cid tutor um hist atts = apologyHead ++ rest := by
  refine ⟨runInference_eq _ _, ⟨" Ошибка: " ++ (PyError.attributeError "chat_completion").toMessage, ?_⟩⟩
  rw [processUserMessage, runInference_eq, String.append_assoc]

/-- C5: the prompt built for the inference backend is exactly one system
entry, then the last `min |history| 10` history entries in their original
order (a suffix of the formatted history, hence never reordered and never
more than 10 entries), then exactly one final entry with role "user"
carrying the new user message. -/
theorem prompt_structure (tutor : Tutor) (um : String) (h : List Msg) :
    buildPromptMessages tutor um h =
      ChatEntry.mk "system" (buildSystemPrompt tutor) ::
        ((h.drop (h.length - 10)).map msgToEntry ++ [ChatEntry.mk "user" um]) ∧
    ((h.drop (h.length - 10)).map msgToEntry).length = min h.length 10 ∧
    (buildPromptMessages tutor um h).length = 1 + min h.length 10 + 1 ∧
    List.IsSuffix ((h.drop (h.length - 10)).map msgToEntry) (h.map msgToEntry) := by
  refine ⟨buildPromptMessages_eq tutor um h, promptWindow_length h, ?_, ?_⟩
  · rw [buildPromptMessages_eq]
    simp [promptWindow_length h]
    omega
  · exact (List.drop_suffix _ _).map msgToEntry

/-- C8: in every `send_message` execution that reaches the inference layer,
the user's message is committed to the store strictly before the inference
attempt: the attempt occurs, the store seen at the attempt already contains
the user's row, and the commit event precedes the attempt in the trace. -/
theorem send_message_commits_user_before_inference
    (db : DB) (cid uid : Nat) (content : String) (atts : Option (List JsonDict))
    (callResult : Except PyError String) (chat : ChatRow) (tutor : Tutor)
    (hchat : findChat db cid uid = some chat)
    (htutor : findTutor db chat.tutor_id = some tutor) :
    (∃ s, (TraceEvent.inferenceAttempt, s) ∈
        (send_message db cid uid content atts callResult).trace) ∧
    (∀ s, (TraceEvent.inferenceAttempt, s) ∈
        (send_message db cid uid content atts callResult).trace →
      ∃ m ∈ s, m.role = "user" ∧ m.content = content ∧ m.chat_id = cid) ∧
    (∃ (i j mid : Nat) (s1 s2 : List Msg), i < j ∧
      (send_message db cid uid content atts callResult).trace[i]? =
        some (TraceEvent.commitUserMessage mid, s1) ∧
      (send_message db cid uid content atts callResult).trace[j]? =
        some (TraceEvent.inferenceAttempt, s2)) := by
  unfold send_message
  rw [hchat]
  dsimp only
  rw [htutor]
  dsimp only
  refine ⟨⟨_, List.mem_cons_of_mem _ (List.mem_cons_of_mem _ (List.mem_cons_self _ _))⟩,
    ?_, 0, 2, db.next_message_id, _, _, by omega, rfl, rfl⟩
  intro s hs
  simp at hs
  subst hs
  exact ⟨_, List.mem_append_right _ (List.mem_singleton_self _), rfl, rfl, rfl⟩

/-- Witness for C8 at a concrete store: one chat, one tutor, empty history. -/
theorem send_message_commits_user_before_inference_witness :
    findChat db0 1 1 = some chat0 ∧ findTutor db0 chat0.tutor_id = some tutor0 ∧
    ((∃ s, (TraceEvent.inferenceAttempt, s) ∈
        (send_message db0 1 1 "Привет" none (Except.ok "ответ")).trace) ∧
     (∀ s, (TraceEvent.inferenceAttempt, s) ∈
        (send_message db0 1 1 "Привет" none (Except.ok "ответ")).trace →
       ∃ m ∈ s, m.role = "user" ∧ m.content = "Привет" ∧ m.chat_id = 1) ∧
     (∃ (i j mid : Nat) (s1 s2 : List Msg), i < j ∧
       (send_message db0 1 1 "Привет" none (Except.ok "ответ")).trace[i]? =
         some (TraceEvent.commitUserMessage mid, s1) ∧
       (send_message db0 1 1 "Привет" none (Except.ok "ответ")).trace[j]? =
         some (TraceEvent.inferenceAttempt, s2))) :=
  ⟨rfl, rfl,
    send_message_commits_user_before_inference db0 1 1 "Привет" none
      (Except.ok "ответ") chat0 tutor0 rfl rfl⟩

/-- The delivered page of the pagination read is the first `limit` rows of
the descending-ordered filtered query, reversed: taking `limit + 1` rows,
dropping the extra one when present, and reversing collapses to this. -/
theorem get_chat_messages_messages_eq (msgs : List Msg) (cid limit : Nat) (bid : Option Nat) :
    (get_chat_messages msgs cid limit bid).messages =
      ((orderByCreatedDesc (applyBeforeFilter (chatFilter msgs cid) bid)).take limit).reverse := by
  unfold get_chat_messages
  dsimp only
  by_cases hlt :
      limit < ((orderByCreatedDesc (applyBeforeFilter (chatFilter msgs cid) bid)).take
        (limit + 1)).length
  · rw [decide_eq_true hlt, if_pos rfl]
    rw [List.take_take]
    have hmin : min limit (limit + 1) = limit := by omega
    rw [hmin]
  · rw [decide_eq_false hlt]
    have hfalse : ((false : Bool) = true) = False := by simp
    rw [if_neg (by simp)]
    have hlen : (orderByCreatedDesc (applyBeforeFilter (chatFilter msgs cid) bid)).length
        ≤ limit := by
      have := List.length_take (limit + 1)
        (orderByCreatedDesc (applyBeforeFilter (chatFilter msgs cid) bid))
      omega
    rw [List.take_of_length_le (by omega), List.take_of_length_le hlen]

/-- `has_more` of the pagination read is exactly "the filtered query holds
more than `limit` rows". -/
theorem get_chat_messages_has_more_eq (msgs : List Msg) (cid limit : Nat) (bid : Option Nat) :
    (get_chat_messages msgs cid limit bid).has_more =
      decide (limit < (applyBeforeFilter (chatFilter msgs cid) bid).length) := by
  unfold get_chat_messages
  dsimp only
  have hlen : ((orderByCreatedDesc (applyBeforeFilter (chatFilter msgs cid) bid)).take
      (limit + 1)).length = min (limit + 1) (applyBeforeFilter (chatFilter msgs cid) bid).length := by
    rw [List.length_take, orderByCreatedDesc, List.length_insertionSort]
  rw [hlen]
  by_cases hlt : limit < (applyBeforeFilter (chatFilter msgs cid) bid).length
  · rw [decide_eq_true hlt, decide_eq_true (by omega)]
  · rw [decide_eq_false hlt, decide_eq_false (by omega)]

/-- `total` of the pagination read is the full chat count, independent of
the window. -/
theorem get_chat_messages_total_eq (msgs : List Msg) (cid limit : Nat) (bid : Option Nat) :
    (get_chat_messages msgs cid limit bid).total = (chatFilter msgs cid).length := rfl

/-- A message of the chat is delivered by a cursorless page whose limit
covers the whole chat. -/
theorem mem_get_chat_messages_full_page (msgs : List Msg) (cid limit : Nat) (m : Msg)
    (hm : m ∈ msgs) (hc : m.chat_id = cid)
    (hlen : (chatFilter msgs cid).length ≤ limit) :
    m ∈ (get_chat_messages msgs cid limit none).messages := by
  rw [get_chat_messages_messages_eq]
  rw [List.mem_reverse]
  have hF : applyBeforeFilter (chatFilter msgs cid) none = chatFilter msgs cid := rfl
  rw [hF]
  have hle : (orderByCreatedDesc (chatFilter msgs cid)).length ≤ limit := by
    rw [orderByCreatedDesc, List.length_insertionSort]
    exact hlen
  rw [List.take_of_length_le hle]
  exact (List.mem_insertionSort _).mpr (List.mem_filter.mpr ⟨hm, by simp [hc]⟩)

/-- Counterexample to C1 as stated: with the store holding one empty chat
and the inference call failing with the timeout error, `send_message` still
creates an assistant message for the chat and reports success with a message
pair — no typed timeout failure reaches the caller. -/
theorem send_message_timeout_counterexample :
    (((send_message db0 1 1 "Привет" none
        (Except.error (PyError.timeoutError
          "AI Core service timeout - model is taking too long to respond"))).db.messages.any
      fun m => m.chat_id == 1 && m.role == "assistant") = true) ∧
    ∃ p, (send_message db0 1 1 "Привет" none
        (Except.error (PyError.timeoutError
          "AI Core service timeout - model is taking too long to respond"))).response =
      Except.ok p :=
  ⟨rfl, ⟨_, rfl⟩⟩

/-- C1 (amended): when the inference attempt fails during `send_message`
(as it always does — the orchestrator swallows the failure), the user's
already-persisted message stays in the store and is retrievable via
pagination, but an assistant message carrying the graceful-degrade apology
text is also created, and the operation reports success with the message
pair instead of a typed failure. -/
theorem send_message_failure_keeps_user_and_adds_apology
    (db : DB) (cid uid : Nat) (content : String) (atts : Option (List JsonDict))
    (callResult : Except PyError String) (chat : ChatRow) (tutor : Tutor)
    (hchat : findChat db cid uid = some chat)
    (htutor : findTutor db chat.tutor_id = some tutor)
    (hcount : (chatFilter db.messages cid).length + 2 ≤ 100) :
    ∃ um am,
      (send_message db cid uid content atts callResult).response = Except.ok (um, am) ∧
      um.role = "user" ∧ um.content = content ∧ um.chat_id = cid ∧
      um ∈ (send_message db cid uid content atts callResult).db.messages ∧
      am.role = "assistant" ∧ am.chat_id = cid ∧
      (∃ rest, am.content = apologyHead ++ rest) ∧
      am ∈ (send_message db cid uid content atts callResult).db.messages ∧
      um ∈ (get_chat_messages (send_message db cid uid content atts callResult).db.messages
              cid 100 none).messages := by
  unfold send_message
  rw [hchat]
  dsimp only
  rw [htutor]
  dsimp only
  refine ⟨_, _, rfl, rfl, rfl, rfl,
    List.mem_append_left _ (List.mem_append_right _ (List.mem_singleton_self _)),
    rfl, rfl,
    ⟨" Ошибка: " ++ (PyError.attributeError "chat_completion").toMessage, ?_⟩,
    List.mem_append_right _ (List.mem_singleton_self _), ?_⟩
  · rw [runInference_eq, String.append_assoc]
  · apply mem_get_chat_messages_full_page
    · exact List.mem_append_left _ (List.mem_append_right _ (List.mem_singleton_self _))
    · rfl
    · rw [chatFilter, List.filter_append, List.filter_append]
      rw [chatFilter] at hcount
      simp only [List.length_append, List.filter_cons, List.filter_nil]
      simp [newUserMsg]
      omega

/-- Witness for the amended C1 at a concrete store: one chat, one tutor,
empty history, timed-out inference call. -/
theorem send_message_failure_witness :
    findChat db0 1 1 = some chat0 ∧ findTutor db0 chat0.tutor_id = some tutor0 ∧
    (chatFilter db0.messages 1).length + 2 ≤ 100 ∧
    (∃ um am,
      (send_message db0 1 1 "Привет" none
        (Except.error (PyError.timeoutError "timeout"))).response = Except.ok (um, am) ∧
      um.role = "user" ∧ um.content = "Привет" ∧ um.chat_id = 1 ∧
      um ∈ (send_message db0 1 1 "Привет" none
              (Except.error (PyError.timeoutError "timeout"))).db.messages ∧
      am.role = "assistant" ∧ am.chat_id = 1 ∧
      (∃ rest, am.content = apologyHead ++ rest) ∧
      am ∈ (send_message db0 1 1 "Привет" none
              (Except.error (PyError.timeoutError "timeout"))).db.messages ∧
      um ∈ (get_chat_messages (send_message db0 1 1 "Привет" none
              (Except.error (PyError.timeoutError "timeout"))).db.messages 1 100 none).messages) :=
  ⟨rfl, rfl, by decide,
    send_message_failure_keeps_user_and_adds_apology db0 1 1 "Привет" none
      (Except.error (PyError.timeoutError "timeout")) chat0 tutor0 rfl rfl (by decide)⟩

/-- Crossing a filter keeps membership in the underlying rows. -/
theorem mem_of_mem_applyBeforeFilter {rows : List Msg} {bid : Option Nat} {m : Msg}
    (h : m ∈ applyBeforeFilter rows bid) : m ∈ rows := by
  cases bid with
  | none => exact h
  | some b =>
    by_cases hb : b = 0
    · simpa [applyBeforeFilter, hb] using h
    · have h2 := h
      simp only [applyBeforeFilter, if_neg hb] at h2
      exact List.mem_of_mem_filter h2

/-- Rows of the chat query belong to the chat. -/
theorem chat_id_of_mem_chatFilter {msgs : List Msg} {cid : Nat} {m : Msg}
    (h : m ∈ chatFilter msgs cid) : m.chat_id = cid := by
  have := List.of_mem_filter h
  simpa using this

/-- C3 (amended): the pagination read queries `limit + 1` rows ordered by
creation time descending (with no identifier tiebreak — rows with equal
timestamps keep table order), sets `has_more` iff the extra row was
returned, discards it, reverses to oldest-first delivery, and computes
`total` as a separate full count of the chat decoupled from the window. -/
theorem pagination_algorithm (msgs : List Msg) (cid limit : Nat) (bid : Option Nat) :
    (get_chat_messages msgs cid limit bid).total = (chatFilter msgs cid).length ∧
    ((get_chat_messages msgs cid limit bid).has_more = true ↔
      limit < (applyBeforeFilter (chatFilter msgs cid) bid).length) ∧
    (get_chat_messages msgs cid limit bid).messages =
      ((orderByCreatedDesc (applyBeforeFilter (chatFilter msgs cid) bid)).take limit).reverse ∧
    (get_chat_messages msgs cid limit bid).messages.length =
      min limit (applyBeforeFilter (chatFilter msgs cid) bid).length ∧
    List.Sorted createdAscLe (get_chat_messages msgs cid limit bid).messages ∧
    (∀ m ∈ (get_chat_messages msgs cid limit bid).messages, m.chat_id = cid) := by
  refine ⟨get_chat_messages_total_eq msgs cid limit bid, ?_,
    get_chat_messages_messages_eq msgs cid limit bid, ?_, ?_, ?_⟩
  · rw [get_chat_messages_has_more_eq]
    simp
  · rw [get_chat_messages_messages_eq]
    rw [List.length_reverse, List.length_take, orderByCreatedDesc, List.length_insertionSort]
  · rw [get_chat_messages_messages_eq]
    rw [List.Sorted, List.pairwise_reverse]
    exact (List.sorted_insertionSort createdDescLe _).sublist
      (List.take_sublist _ _)
  · intro m hm
    rw [get_chat_messages_messages_eq, List.mem_reverse] at hm
    have hmS : m ∈ orderByCreatedDesc (applyBeforeFilter (chatFilter msgs cid) bid) :=
      (List.take_sublist _ _).mem hm
    have hmF : m ∈ applyBeforeFilter (chatFilter msgs cid) bid :=
      (List.mem_insertionSort _).mp hmS
    exact chat_id_of_mem_chatFilter (mem_of_mem_applyBeforeFilter hmF)

/-- Counterexample to C3 as stated: with two rows sharing their creation
timestamp, the delivered page differs from the one produced by the
spec-worded query that breaks the tie by identifier — the code has no
identifier tiebreak. -/
theorem pagination_tiebreak_counterexample :
    (get_chat_messages [tie1, tie2] 1 2 none).messages ≠
      (get_chat_messages_spec [tie1, tie2] 1 2 none).messages := by
  decide

/-- C10: chat creation is idempotent per (user, tutor) pair — when a chat
for the pair exists, the state is unchanged and that pair's chat is
returned — and it preserves the at-most-one-chat-per-pair invariant. -/
theorem create_chat_idempotent_and_unique :
    (∀ (st : ChatsState) (uid tid now : Nat) (tutor : Tutor) (c : ChatRow),
      st.tutors.find? (fun t => t.id == tid) = some tutor →
      tutor.is_active = true →
      c ∈ st.chats → c.user_id = uid → c.tutor_id = tid →
      (create_chat st uid tid now).1 = st ∧
      ∃ c0, (create_chat st uid tid now).2 = Except.ok c0 ∧
        c0 ∈ st.chats ∧ c0.user_id = uid ∧ c0.tutor_id = tid) ∧
    (∀ (st : ChatsState) (uid tid now : Nat),
      chatPairUnique st.chats → chatPairUnique (create_chat st uid tid now).1.chats) := by
  constructor
  · intro st uid tid now tutor c hfind hact hc hu ht
    have hsome : (st.chats.find? fun x => x.user_id == uid && x.tutor_id == tid).isSome :=
      List.find?_isSome.mpr ⟨c, hc, by simp [hu, ht]⟩
    obtain ⟨c0, hc0⟩ := Option.isSome_iff_exists.mp hsome
    have hp := List.find?_some hc0
    simp only [Bool.and_eq_true, beq_iff_eq] at hp
    unfold create_chat
    rw [hfind]
    dsimp only
    rw [hact]
    rw [if_neg (by simp : ¬((!true : Bool) = true))]
    rw [hc0]
    exact ⟨rfl, c0, rfl, List.mem_of_find?_eq_some hc0, hp.1, hp.2⟩
  · intro st uid tid now huniq
    unfold create_chat
    split
    · exact huniq
    · split
      · exact huniq
      · split
        · exact huniq
        · next hfindc =>
          dsimp only
          rw [chatPairUnique, List.pairwise_append]
          refine ⟨huniq, List.pairwise_singleton _ _, ?_⟩
          intro a ha b hb
          rw [List.mem_singleton] at hb
          subst hb
          have hna := List.find?_eq_none.mp hfindc a ha
          simp only [Bool.and_eq_true, beq_iff_eq, not_and] at hna
          intro hcontra
          exact absurd (hna hcontra.1) (fun hh => hh hcontra.2)

/-- Witness for C10: re-requesting the (1, 1) chat of `chatsSt0` returns the
stored chat and changes nothing, and uniqueness is preserved. -/
theorem create_chat_idempotent_witness :
    (chatsSt0.tutors.find? (fun t => t.id == 1) = some tutor0 ∧
     tutor0.is_active = true ∧
     chat0 ∈ chatsSt0.chats ∧ chat0.user_id = 1 ∧ chat0.tutor_id = 1 ∧
     ((create_chat chatsSt0 1 1 5).1 = chatsSt0 ∧
      ∃ c0, (create_chat chatsSt0 1 1 5).2 = Except.ok c0 ∧
        c0 ∈ chatsSt0.chats ∧ c0.user_id = 1 ∧ c0.tutor_id = 1)) ∧
    (chatPairUnique chatsSt0.chats ∧
     chatPairUnique (create_chat chatsSt0 1 1 5).1.chats) :=
  ⟨⟨rfl, rfl, by decide, rfl, rfl,
    create_chat_idempotent_and_unique.1 chatsSt0 1 1 5 tutor0 chat0 rfl rfl (by decide) rfl rfl⟩,
   ⟨by decide, create_chat_idempotent_and_unique.2 chatsSt0 1 1 5 (by decide)⟩⟩

/-- Searching an append skips a prefix with no hit. -/
theorem find?_append_of_none {α : Type} (l1 l2 : List α) (p : α → Bool)
    (h : l1.find? p = none) : (l1 ++ l2).find? p = l2.find? p := by
  induction l1 with
  | nil => rfl
  | cons a t ih =>
    have hp : ¬p a = true := by
      intro hpa
      rw [List.find?_cons_of_pos _ hpa] at h
      cases h
    rw [List.find?_cons_of_neg _ hp] at h
    rw [List.cons_append, List.find?_cons_of_neg _ hp]
    exact ih h

/-- Re-setting `processed` to the value it already has changes nothing. -/
theorem withProcessedFalse_eq (r : FeedbackRow) (h : r.processed = false) :
    ({ r with processed := false } : FeedbackRow) = r := by
  cases r
  simp_all

/-- Marking a freshly inserted feedback row (whose identifier is new and
whose `processed` flag is already false) leaves the table unchanged. -/
theorem mark_fresh_append (l : List FeedbackRow) (nf : FeedbackRow)
    (hfresh : ∀ f ∈ l, ¬f.id = nf.id) (hproc : nf.processed = false) :
    mark_feedback_for_training (l ++ [nf]) nf.id = l ++ [nf] := by
  have hnone : l.find? (fun f => f.id == nf.id) = none :=
    List.find?_eq_none.mpr fun f hf => by simpa using hfresh f hf
  have hfind : (l ++ [nf]).find? (fun f => f.id == nf.id) = some nf := by
    rw [find?_append_of_none _ _ _ hnone]
    simp
  unfold mark_feedback_for_training
  rw [hfind]
  dsimp only
  by_cases hat : nf.allow_training
  · rw [if_pos hat, List.map_append]
    congr 1
    · conv_rhs => rw [← List.map_id l]
      apply List.map_congr_left
      intro f hf
      have hne : ¬(f.id == nf.id) = true := by simpa using hfresh f hf
      simp [hne]
    · simp [withProcessedFalse_eq nf hproc]
  · rw [if_neg hat]

/-- After a recompute, the tutor's row carries the recomputed aggregates. -/
theorem update_tutor_rating_find (tutors : List Tutor) (fbs : List FeedbackRow)
    (tid : Nat) (t0 : Tutor)
    (hfind : tutors.find? (fun t => t.id == tid) = some t0) :
    (update_tutor_rating tutors fbs tid).find? (fun t => t.id == tid) =
      some { t0 with rating := recomputedRating fbs tid,
                     total_feedbacks := (ratedFeedbacks fbs tid).length } := by
  unfold update_tutor_rating
  rw [hfind]
  dsimp only
  rw [List.find?_map]
  have hpg : ((fun t : Tutor => t.id == tid) ∘ fun t : Tutor =>
      if t.id == tid then
        { t with rating := recomputedRating fbs tid,
                 total_feedbacks := (ratedFeedbacks fbs tid).length }
      else t) = fun t : Tutor => t.id == tid := by
    funext x
    by_cases h : (x.id == tid) = true <;> simp [Function.comp, h]
  rw [hpg, hfind]
  have ht0 : t0.id = tid := by simpa using List.find?_some hfind
  simp [ht0]

/-- When the tutor has at least one rated row carrying a positive rating,
the recompute takes the rounded-mean branch. -/
theorem recomputedRating_pos (fbs : List FeedbackRow) (tid : Nat)
    (f0 : FeedbackRow) (r0 : Nat)
    (hmem : f0 ∈ ratedFeedbacks fbs tid) (hr : f0.rating = some r0) (h1 : 1 ≤ r0) :
    recomputedRating fbs tid =
      roundTo2 (ratingSum (ratedFeedbacks fbs tid) /
        ((ratedFeedbacks fbs tid).length : ℚ)) := by
  unfold recomputedRating
  dsimp only
  have hlen : ¬(ratedFeedbacks fbs tid).length = 0 := by
    intro h0
    rw [List.length_eq_zero] at h0
    rw [h0] at hmem
    cases hmem
  rw [if_neg hlen]
  have hpos : 0 < ratingSum (ratedFeedbacks fbs tid) := by
    rw [ratingSum]
    have hterm : ((r0 : ℚ)) ∈ (ratedFeedbacks fbs tid).map
        (fun f => ((f.rating.getD 0 : ℕ) : ℚ)) := by
      refine List.mem_map.mpr ⟨f0, hmem, ?_⟩
      rw [hr]
      rfl
    have hnn : ∀ x ∈ (ratedFeedbacks fbs tid).map
        (fun f => ((f.rating.getD 0 : ℕ) : ℚ)), 0 ≤ x := by
      intro x hx
      obtain ⟨f, _, rfl⟩ := List.mem_map.mp hx
      positivity
    have hle := List.single_le_sum hnn _ hterm
    have h1q : (1 : ℚ) ≤ (r0 : ℚ) := by exact_mod_cast h1
    linarith
  have hql : (0 : ℚ) < ((ratedFeedbacks fbs tid).length : ℚ) := by
    have : 0 < (ratedFeedbacks fbs tid).length := Nat.pos_of_ne_zero hlen
    exact_mod_cast this
  dsimp only
  rw [if_pos (ne_of_gt (div_pos hpos hql))]

/-- C9: creating a feedback with a non-null rating recomputes the tutor's
aggregates: the stored rating equals the mean of `rating` over all of the
tutor's rated feedback rows rounded to two decimals, `total_feedbacks`
equals the count of those rows; a recompute over zero rated rows resets the
rating to 0; and the concrete ratings [5,5,4] yield rating 4.67 with
`total_feedbacks` 3. -/
theorem create_feedback_rating_aggregate :
    (∀ (st : AppState) (uid : Nat) (d : FeedbackCreate) (chat : ChatRow) (r0 : Nat),
      st.chats.find? (fun c => c.id == d.chat_id && c.user_id == uid) = some chat →
      d.rating = some r0 → 1 ≤ r0 →
      (st.tutors.find? fun t => t.id == chat.tutor_id).isSome →
      (∀ f ∈ st.feedbacks, f.id < st.next_feedback_id) →
      ∃ t, ((create_detailed_feedback st uid d).1.tutors.find?
              fun x => x.id == chat.tutor_id) = some t ∧
        1 ≤ (ratedFeedbacks (create_detailed_feedback st uid d).1.feedbacks
              chat.tutor_id).length ∧
        t.rating = roundTo2 (ratingSum (ratedFeedbacks
            (create_detailed_feedback st uid d).1.feedbacks chat.tutor_id) /
          ((ratedFeedbacks (create_detailed_feedback st uid d).1.feedbacks
            chat.tutor_id).length : ℚ)) ∧
        t.total_feedbacks = (ratedFeedbacks
            (create_detailed_feedback st uid d).1.feedbacks chat.tutor_id).length) ∧
    (∀ (tutors : List Tutor) (fbs : List FeedbackRow) (tid : Nat) (t0 : Tutor),
      tutors.find? (fun t => t.id == tid) = some t0 →
      ratedFeedbacks fbs tid = [] →
      ∃ t, ((update_tutor_rating tutors fbs tid).find? fun x => x.id == tid) = some t ∧
        t.rating = 0) ∧
    (∃ t, ((create_detailed_feedback exSt 1 exD).1.tutors.find?
            fun x => x.id == 1) = some t ∧
      t.rating = 467 / 100 ∧ t.total_feedbacks = 3) := by
  have hzero : ∀ (tutors : List Tutor) (fbs : List FeedbackRow) (tid : Nat) (t0 : Tutor),
      tutors.find? (fun t => t.id == tid) = some t0 →
      ratedFeedbacks fbs tid = [] →
      ∃ t, ((update_tutor_rating tutors fbs tid).find? fun x => x.id == tid) = some t ∧
        t.rating = 0 := by
    intro tutors fbs tid t0 hfind hz
    refine ⟨_, update_tutor_rating_find tutors fbs tid t0 hfind, ?_⟩
    dsimp only
    unfold recomputedRating
    dsimp only
    rw [hz]
    simp
  have hmain : ∀ (st : AppState) (uid : Nat) (d : FeedbackCreate) (chat : ChatRow) (r0 : Nat),
      st.chats.find? (fun c => c.id == d.chat_id && c.user_id == uid) = some chat →
      d.rating = some r0 → 1 ≤ r0 →
      (st.tutors.find? fun t => t.id == chat.tutor_id).isSome →
      (∀ f ∈ st.feedbacks, f.id < st.next_feedback_id) →
      ∃ t, ((create_detailed_feedback st uid d).1.tutors.find?
              fun x => x.id == chat.tutor_id) = some t ∧
        1 ≤ (ratedFeedbacks (create_detailed_feedback st uid d).1.feedbacks
              chat.tutor_id).length ∧
        t.rating = roundTo2 (ratingSum (ratedFeedbacks
            (create_detailed_feedback st uid d).1.feedbacks chat.tutor_id) /
          ((ratedFeedbacks (create_detailed_feedback st uid d).1.feedbacks
            chat.tutor_id).length : ℚ)) ∧
        t.total_feedbacks = (ratedFeedbacks
            (create_detailed_feedback st uid d).1.feedbacks chat.tutor_id).length := by
    intro st uid d chat r0 hchat hr h1 hts hids
    obtain ⟨t0, hfind0⟩ := Option.isSome_iff_exists.mp hts
    have htr : ratingTruthy d.rating = true := by
      rw [hr]
      simp [ratingTruthy]
      omega
    have hfresh : ∀ f ∈ st.feedbacks, ¬f.id = (newFeedbackRow st uid d chat.tutor_id).id := by
      intro f hf
      have := hids f hf
      simp only [newFeedbackRow]
      omega
    unfold create_detailed_feedback
    rw [hchat]
    dsimp only
    rw [htr, if_pos rfl]
    dsimp only
    rw [mark_fresh_append _ _ hfresh rfl]
    have hmem : newFeedbackRow st uid d chat.tutor_id ∈
        ratedFeedbacks (st.feedbacks ++ [newFeedbackRow st uid d chat.tutor_id])
          chat.tutor_id := by
      refine List.mem_filter.mpr ⟨List.mem_append_right _ (List.mem_singleton_self _), ?_⟩
      simp [newFeedbackRow, hr]
    refine ⟨_, update_tutor_rating_find st.tutors _ chat.tutor_id t0 hfind0, ?_, ?_, rfl⟩
    · refine Nat.one_le_iff_ne_zero.mpr fun h0 => ?_
      rw [List.length_eq_zero] at h0
      rw [h0] at hmem
      cases hmem
    · dsimp only
      exact recomputedRating_pos _ _ _ r0 hmem (by simp [newFeedbackRow, hr]) h1
  refine ⟨hmain, hzero, ?_⟩
  obtain ⟨t, hfindt, hlen, hrat, htot⟩ :=
    hmain exSt 1 exD chat0 4 rfl rfl (by omega) rfl (by decide)
  refine ⟨t, hfindt, ?_, ?_⟩
  · rw [hrat]
    have hR : ratedFeedbacks (create_detailed_feedback exSt 1 exD).1.feedbacks
        chat0.tutor_id = [fb5a, fb5b, newFeedbackRow exSt 1 exD 1] := by decide
    rw [hR]
    norm_num [ratingSum, roundTo2, roundHalfEven, fb5a, fb5b, newFeedbackRow, exSt, exD]
  · rw [htot]
    decide

/-- Witness for C9: concrete instantiations of the recompute part (state
`exSt`, 4-star feedback) and of the zero-rated-rows part. -/
theorem create_feedback_rating_witness :
    (exSt.chats.find? (fun c => c.id == exD.chat_id && c.user_id == 1) = some chat0 ∧
     exD.rating = some 4 ∧ 1 ≤ 4 ∧
     (exSt.tutors.find? fun t => t.id == chat0.tutor_id).isSome ∧
     (∀ f ∈ exSt.feedbacks, f.id < exSt.next_feedback_id) ∧
     (∃ t, ((create_detailed_feedback exSt 1 exD).1.tutors.find?
             fun x => x.id == chat0.tutor_id) = some t ∧
       1 ≤ (ratedFeedbacks (create_detailed_feedback exSt 1 exD).1.feedbacks
             chat0.tutor_id).length ∧
       t.rating = roundTo2 (ratingSum (ratedFeedbacks
           (create_detailed_feedback exSt 1 exD).1.feedbacks chat0.tutor_id) /
         ((ratedFeedbacks (create_detailed_feedback exSt 1 exD).1.feedbacks
           chat0.tutor_id).length : ℚ)) ∧
       t.total_feedbacks = (ratedFeedbacks
           (create_detailed_feedback exSt 1 exD).1.feedbacks chat0.tutor_id).length)) ∧
    (([tutor0] : List Tutor).find? (fun t => t.id == 1) = some tutor0 ∧
     ratedFeedbacks [] 1 = [] ∧
     ∃ t, ((update_tutor_rating [tutor0] [] 1).find? fun x => x.id == 1) = some t ∧
       t.rating = 0) :=
  ⟨⟨rfl, rfl, by omega, rfl, by decide,
    create_feedback_rating_aggregate.1 exSt 1 exD chat0 4 rfl rfl (by omega) rfl (by decide)⟩,
   ⟨rfl, rfl, create_feedback_rating_aggregate.2.1 [tutor0] [] 1 tutor0 rfl rfl⟩⟩

/-- The cursor filter returns a sublist of its input. -/
theorem sublist_applyBeforeFilter (rows : List Msg) (bid : Option Nat) :
    (applyBeforeFilter rows bid).Sublist rows := by
  cases bid with
  | none => exact List.Sublist.refl rows
  | some b =>
    by_cases hb : b = 0
    · simp [applyBeforeFilter, hb]
    · simp only [applyBeforeFilter, if_neg hb]
      exact List.filter_sublist rows

/-- Identifier uniqueness survives the descending sort of any sublist of
the table. -/
theorem idsNodup_sort_desc (msgs l : List Msg) (hsub : l.Sublist msgs)
    (hid : (msgs.map Msg.id).Nodup) : ((orderByCreatedDesc l).map Msg.id).Nodup :=
  (((List.perm_insertionSort createdDescLe l).map Msg.id).nodup_iff).mpr
    ((hsub.map Msg.id).nodup hid)

/-- Identifier uniqueness survives the ascending sort of any sublist of
the table. -/
theorem idsNodup_sort_asc (msgs l : List Msg) (hsub : l.Sublist msgs)
    (hid : (msgs.map Msg.id).Nodup) : ((orderByCreatedAsc l).map Msg.id).Nodup :=
  (((List.perm_insertionSort createdAscLe l).map Msg.id).nodup_iff).mpr
    ((hsub.map Msg.id).nodup hid)

/-- When identifiers are unique and creation order agrees with identifier
order, a list sorted newest-first is strictly decreasing in identifiers. -/
theorem sorted_desc_strict (msgs l : List Msg)
    (hsub : ∀ x ∈ l, x ∈ msgs)
    (hid : (l.map Msg.id).Nodup)
    (hmono : ∀ a ∈ msgs, ∀ b ∈ msgs, (a.id < b.id ↔ a.created_at < b.created_at))
    (hsorted : l.Pairwise createdDescLe) :
    l.Pairwise fun a b => b.id < a.id := by
  have hne : l.Pairwise fun a b => a.id ≠ b.id := List.pairwise_map.mp hid
  have hmem := List.Pairwise.and_mem.mp (hsorted.and hne)
  refine hmem.imp ?_
  intro a b hab
  obtain ⟨ha, hb, hle, hneid⟩ := hab
  have haM := hsub a ha
  have hbM := hsub b hb
  rcases Nat.lt_or_ge b.id a.id with hlt | hge
  · exact hlt
  · rcases Nat.lt_or_eq_of_le hge with h2 | h2
    · have hcr := (hmono a haM b hbM).mp h2
      rw [createdDescLe] at hle
      omega
    · exact absurd h2 hneid

/-- When identifiers are unique and creation order agrees with identifier
order, a list sorted oldest-first is strictly increasing in creation time. -/
theorem sorted_asc_strict (msgs l : List Msg)
    (hsub : ∀ x ∈ l, x ∈ msgs)
    (hid : (l.map Msg.id).Nodup)
    (hmono : ∀ a ∈ msgs, ∀ b ∈ msgs, (a.id < b.id ↔ a.created_at < b.created_at))
    (hsorted : l.Pairwise createdAscLe) :
    l.Pairwise fun a b => a.created_at < b.created_at := by
  have hne : l.Pairwise fun a b => a.id ≠ b.id := List.pairwise_map.mp hid
  have hmem := List.Pairwise.and_mem.mp (hsorted.and hne)
  refine hmem.imp ?_
  intro a b hab
  obtain ⟨ha, hb, hle, hneid⟩ := hab
  have haM := hsub a ha
  have hbM := hsub b hb
  rw [createdAscLe] at hle
  rcases Nat.lt_or_ge a.id b.id with hlt | hge
  · exact (hmono a haM b hbM).mp hlt
  · rcases Nat.lt_or_eq_of_le hge with h2 | h2
    · have hcr := (hmono b hbM a haM).mp h2
      omega
    · exact absurd h2.symm hneid

/-- A chat row with a smaller identifier than some row passing the cursor
condition also passes it. -/
theorem mem_applyBeforeFilter_of_lt {rows : List Msg} {bid : Option Nat} {m p : Msg}
    (hm : m ∈ rows)
    (hp : p ∈ applyBeforeFilter rows bid)
    (hlt : m.id < p.id) :
    m ∈ applyBeforeFilter rows bid := by
  cases bid with
  | none => exact hm
  | some b =>
    by_cases hb : b = 0
    · simpa [applyBeforeFilter, hb] using hm
    · simp only [applyBeforeFilter, if_neg hb] at hp ⊢
      have hpb : p.id < b := by simpa using List.of_mem_filter hp
      refine List.mem_filter.mpr ⟨hm, ?_⟩
      simp
      omega

/-- Counterexample to C4 as stated: chat 1 holds two rows with one shared
creation timestamp and identifiers 1 and 2; the `limit = 1` cursorless page
returns `has_more = true`, yet no message of the chat has an identifier
below the page's oldest returned identifier (which is 1). -/
theorem has_more_tie_counterexample :
    (get_chat_messages [tie1, tie2] 1 1 none).has_more = true ∧
    ¬∃ m ∈ ([tie1, tie2] : List Msg), m.chat_id = 1 ∧
      ∃ p, (get_chat_messages [tie1, tie2] 1 1 none).messages.head? = some p ∧
        m.id < p.id := by
  decide

/-- C4 (amended): for limits of at least 1, when identifiers are unique and
creation order agrees with identifier order (no shared timestamps),
`has_more` is true iff a message of the chat has an identifier smaller than
the page's oldest returned identifier. -/
theorem has_more_iff_older_message
    (msgs : List Msg) (cid limit : Nat) (bid : Option Nat)
    (hlimit : 1 ≤ limit)
    (hid : (msgs.map Msg.id).Nodup)
    (hmono : ∀ a ∈ msgs, ∀ b ∈ msgs, (a.id < b.id ↔ a.created_at < b.created_at)) :
    ((get_chat_messages msgs cid limit bid).has_more = true ↔
      ∃ m ∈ msgs, m.chat_id = cid ∧
        ∃ p, (get_chat_messages msgs cid limit bid).messages.head? = some p ∧
          m.id < p.id) := by
  rw [get_chat_messages_has_more_eq, get_chat_messages_messages_eq,
    List.head?_reverse, decide_eq_true_eq]
  have hsubF : (applyBeforeFilter (chatFilter msgs cid) bid).Sublist msgs :=
    (sublist_applyBeforeFilter _ _).trans (List.filter_sublist msgs)
  have hidS : (((orderByCreatedDesc (applyBeforeFilter (chatFilter msgs cid) bid))).map
      Msg.id).Nodup := idsNodup_sort_desc msgs _ hsubF hid
  have hsubS : ∀ x ∈ orderByCreatedDesc (applyBeforeFilter (chatFilter msgs cid) bid),
      x ∈ msgs := fun x hx => hsubF.mem ((List.mem_insertionSort _).mp hx)
  have hstrict := sorted_desc_strict msgs _ hsubS hidS hmono
    (List.sorted_insertionSort createdDescLe _)
  have hlenS : (orderByCreatedDesc (applyBeforeFilter (chatFilter msgs cid) bid)).length =
      (applyBeforeFilter (chatFilter msgs cid) bid).length :=
    List.length_insertionSort _ _
  constructor
  · intro hlt
    have hlen1 : ((orderByCreatedDesc (applyBeforeFilter (chatFilter msgs cid) bid)).take
        limit).length = limit := by
      rw [List.length_take]
      omega
    have hne : (orderByCreatedDesc (applyBeforeFilter (chatFilter msgs cid) bid)).take
        limit ≠ [] := by
      intro h0
      rw [h0] at hlen1
      simp at hlen1
      omega
    obtain ⟨p, hp⟩ := Option.isSome_iff_exists.mp (List.getLast?_isSome.mpr hne)
    have hdne : (orderByCreatedDesc (applyBeforeFilter (chatFilter msgs cid) bid)).drop
        limit ≠ [] := by
      simp [List.drop_eq_nil_iff]
      omega
    obtain ⟨m, hm⟩ := Option.isSome_iff_exists.mp (List.head?_isSome.mpr hdne)
    have hmS : m ∈ orderByCreatedDesc (applyBeforeFilter (chatFilter msgs cid) bid) :=
      (List.drop_sublist _ _).mem (List.mem_of_mem_head? (Option.mem_def.mpr hm))
    have hmF : m ∈ applyBeforeFilter (chatFilter msgs cid) bid :=
      (List.mem_insertionSort _).mp hmS
    have hPW := hstrict
    rw [← List.take_append_drop limit
      (orderByCreatedDesc (applyBeforeFilter (chatFilter msgs cid) bid)),
      List.pairwise_append] at hPW
    have hR := hPW.2.2 p (List.mem_of_mem_getLast? (Option.mem_def.mpr hp)) m
      (List.mem_of_mem_head? (Option.mem_def.mpr hm))
    exact ⟨m, hsubF.mem hmF,
      chat_id_of_mem_chatFilter (mem_of_mem_applyBeforeFilter hmF), p, hp, hR⟩
  · rintro ⟨m, hmmsgs, hchat, p, hp, hlt⟩
    by_contra hnot
    push_neg at hnot
    have hSle : (orderByCreatedDesc (applyBeforeFilter (chatFilter msgs cid) bid)).length
        ≤ limit := by omega
    rw [List.take_of_length_le hSle] at hp
    have hpF : p ∈ applyBeforeFilter (chatFilter msgs cid) bid :=
      (List.mem_insertionSort _).mp (List.mem_of_mem_getLast? (Option.mem_def.mpr hp))
    have hmCF : m ∈ chatFilter msgs cid := List.mem_filter.mpr ⟨hmmsgs, by simp [hchat]⟩
    have hmF : m ∈ applyBeforeFilter (chatFilter msgs cid) bid :=
      mem_applyBeforeFilter_of_lt hmCF hpF hlt
    have hmS : m ∈ orderByCreatedDesc (applyBeforeFilter (chatFilter msgs cid) bid) :=
      (List.mem_insertionSort _).mpr hmF
    have hne : orderByCreatedDesc (applyBeforeFilter (chatFilter msgs cid) bid) ≠ [] := by
      intro h0
      rw [h0] at hmS
      cases hmS
    have hplast : p = (orderByCreatedDesc
        (applyBeforeFilter (chatFilter msgs cid) bid)).getLast hne := by
      have h2 := List.getLast?_eq_getLast _ hne
      rw [hp] at h2
      exact (Option.some.injEq _ _).mp h2
    have hPW := hstrict
    rw [← List.dropLast_concat_getLast hne, List.pairwise_append] at hPW
    rw [← List.dropLast_concat_getLast hne] at hmS
    rcases List.mem_append.mp hmS with hmd | hml
    · have hR := hPW.2.2 m hmd _ (List.mem_singleton_self _)
      rw [hplast] at hlt
      omega
    · rw [List.mem_singleton] at hml
      rw [hml, hplast] at hlt
      omega

/-- Witness for the amended C4: three rows with distinct, order-agreeing
identifiers and timestamps, read with `limit = 1`. -/
theorem has_more_iff_older_message_witness :
    1 ≤ 1 ∧
    (([mkMsg 1, mkMsg 2, mkMsg 3].map Msg.id).Nodup) ∧
    (∀ a ∈ ([mkMsg 1, mkMsg 2, mkMsg 3] : List Msg),
      ∀ b ∈ ([mkMsg 1, mkMsg 2, mkMsg 3] : List Msg),
        (a.id < b.id ↔ a.created_at < b.created_at)) ∧
    ((get_chat_messages [mkMsg 1, mkMsg 2, mkMsg 3] 1 1 none).has_more = true ↔
      ∃ m ∈ ([mkMsg 1, mkMsg 2, mkMsg 3] : List Msg), m.chat_id = 1 ∧
        ∃ p, (get_chat_messages [mkMsg 1, mkMsg 2, mkMsg 3] 1 1 none).messages.head? =
            some p ∧ m.id < p.id) :=
  ⟨by decide, by decide, by decide,
    has_more_iff_older_message [mkMsg 1, mkMsg 2, mkMsg 3] 1 1 none
      (by decide) (by decide) (by decide)⟩

/-- C6: when the chat holds more than 20 messages, the history query of
`send_message` (`ORDER BY created_at LIMIT 20`, ascending) returns exactly
20 rows, ordered oldest-first, and every returned row is strictly older
than every chat row left out — the window is drawn from the oldest end of
the conversation, not the most recent end. -/
theorem fetchHistory_takes_oldest
    (msgs : List Msg) (cid : Nat)
    (hid : (msgs.map Msg.id).Nodup)
    (hmono : ∀ a ∈ msgs, ∀ b ∈ msgs, (a.id < b.id ↔ a.created_at < b.created_at))
    (hgt : 20 < (chatFilter msgs cid).length) :
    (fetchHistory msgs cid).length = 20 ∧
    List.Sorted createdAscLe (fetchHistory msgs cid) ∧
    (∀ m ∈ fetchHistory msgs cid, ∀ m2 ∈ chatFilter msgs cid,
      m2 ∉ fetchHistory msgs cid → m.created_at < m2.created_at) := by
  have hlenS : (orderByCreatedAsc (chatFilter msgs cid)).length =
      (chatFilter msgs cid).length := List.length_insertionSort _ _
  have hsubF : (chatFilter msgs cid).Sublist msgs := List.filter_sublist msgs
  have hidS := idsNodup_sort_asc msgs _ hsubF hid
  have hsubS : ∀ x ∈ orderByCreatedAsc (chatFilter msgs cid), x ∈ msgs :=
    fun x hx => hsubF.mem ((List.mem_insertionSort _).mp hx)
  have hstrict := sorted_asc_strict msgs _ hsubS hidS hmono
    (List.sorted_insertionSort createdAscLe _)
  refine ⟨?_, ?_, ?_⟩
  · rw [fetchHistory, List.length_take]
    omega
  · exact (List.sorted_insertionSort createdAscLe _).sublist (List.take_sublist _ _)
  · intro m hm m2 hm2 hnot
    have hm2S : m2 ∈ orderByCreatedAsc (chatFilter msgs cid) :=
      (List.mem_insertionSort _).mpr hm2
    rw [← List.take_append_drop 20 (orderByCreatedAsc (chatFilter msgs cid))] at hm2S
    rcases List.mem_append.mp hm2S with hmem20 | hdrop
    · exact absurd hmem20 hnot
    · have hPW := hstrict
      rw [← List.take_append_drop 20 (orderByCreatedAsc (chatFilter msgs cid)),
        List.pairwise_append] at hPW
      exact hPW.2.2 m hm m2 hdrop

/-- Witness for C6 on a 21-message chat. -/
theorem fetchHistory_takes_oldest_witness :
    ((msgs21.map Msg.id).Nodup) ∧
    (∀ a ∈ msgs21, ∀ b ∈ msgs21, (a.id < b.id ↔ a.created_at < b.created_at)) ∧
    20 < (chatFilter msgs21 1).length ∧
    ((fetchHistory msgs21 1).length = 20 ∧
     List.Sorted createdAscLe (fetchHistory msgs21 1) ∧
     (∀ m ∈ fetchHistory msgs21 1, ∀ m2 ∈ chatFilter msgs21 1,
       m2 ∉ fetchHistory msgs21 1 → m.created_at < m2.created_at)) :=
  ⟨by decide, by decide, by decide,
    fetchHistory_takes_oldest msgs21 1 (by decide) (by decide) (by decide)⟩

/-- In a list sorted oldest-first, an element strictly newer than every
other element sits at the end. -/
theorem getLast?_of_max (l : List Msg) (x : Msg)
    (hx : x ∈ l)
    (hsorted : l.Pairwise createdAscLe)
    (hmax : ∀ y ∈ l, y ≠ x → y.created_at < x.created_at) :
    l.getLast? = some x := by
  have hne : l ≠ [] := by
    intro h0
    rw [h0] at hx
    cases hx
  rw [List.getLast?_eq_getLast _ hne]
  simp only [Option.some.injEq]
  by_contra hneq
  rw [← List.dropLast_concat_getLast hne] at hx hsorted
  rcases List.mem_append.mp hx with hxd | hxl
  · rw [List.pairwise_append] at hsorted
    have hle := hsorted.2.2 x hxd _ (List.mem_singleton_self _)
    have hlt := hmax (l.getLast hne) (List.getLast_mem hne) fun hh => hneq hh
    rw [createdAscLe] at hle
    omega
  · rw [List.mem_singleton] at hxl
    exact absurd hxl.symm hneq

/-- Dropping fewer elements than the length keeps the last element. -/
theorem getLast?_drop_of_lt (l : List Msg) (k : Nat) (hk : k < l.length) :
    (l.drop k).getLast? = l.getLast? := by
  have hne : l.drop k ≠ [] := by
    simp [List.drop_eq_nil_iff]
    omega
  conv_rhs => rw [← List.take_append_drop k l]
  rw [List.getLast?_append_of_ne_nil _ hne]


/-- The last entry of the built prompt is always the new user entry. -/
theorem prompt_getLast (tutor : Tutor) (um : String) (h : List Msg) :
    (buildPromptMessages tutor um h).getLast? = some (ChatEntry.mk "user" um) := by
  rw [buildPromptMessages_eq]
  rw [show ChatEntry.mk "system" (buildSystemPrompt tutor) ::
      ((h.drop (h.length - 10)).map msgToEntry ++ [ChatEntry.mk "user" um]) =
      (ChatEntry.mk "system" (buildSystemPrompt tutor) ::
        (h.drop (h.length - 10)).map msgToEntry) ++ [ChatEntry.mk "user" um] from rfl]
  rw [List.getLast?_append_of_ne_nil _ (by simp)]
  rfl

/-- Everything before the prompt's final user entry: the system entry and
the formatted history window. -/
theorem prompt_dropLast (tutor : Tutor) (um : String) (h : List Msg) :
    (buildPromptMessages tutor um h).dropLast =
      ChatEntry.mk "system" (buildSystemPrompt tutor) ::
        (h.drop (h.length - 10)).map msgToEntry := by
  rw [buildPromptMessages_eq]
  rw [show ChatEntry.mk "system" (buildSystemPrompt tutor) ::
      ((h.drop (h.length - 10)).map msgToEntry ++ [ChatEntry.mk "user" um]) =
      (ChatEntry.mk "system" (buildSystemPrompt tutor) ::
        (h.drop (h.length - 10)).map msgToEntry) ++ [ChatEntry.mk "user" um] from rfl]
  rw [List.dropLast_concat]

/-- C7: when the chat holds at most 20 messages once the user's new message
is committed (so the ascending limit-20 history fetch includes it), the
prompt assembled for the inference backend contains the new user message
twice — once inside the formatted history window and once again as the
appended final entry with role "user". -/
theorem send_message_prompt_duplicates_user
    (db : DB) (cid uid : Nat) (content : String) (atts : Option (List JsonDict))
    (callResult : Except PyError String) (chat : ChatRow) (tutor : Tutor)
    (hwf : db.WF)
    (hchat : findChat db cid uid = some chat)
    (htutor : findTutor db chat.tutor_id = some tutor)
    (hcount : (chatFilter db.messages cid).length + 1 ≤ 20) :
    ∃ P, (send_message db cid uid content atts callResult).prompt = some P ∧
      P.getLast? = some (ChatEntry.mk "user" content) ∧
      ChatEntry.mk "user" content ∈ P.dropLast := by
  obtain ⟨hid, hmono, hidlt, hcrlt⟩ := hwf
  unfold send_message
  rw [hchat]
  dsimp only
  rw [htutor]
  dsimp only
  refine ⟨_, rfl, prompt_getLast _ _ _, ?_⟩
  rw [prompt_dropLast]
  refine List.mem_cons_of_mem _ ?_
  have hCF : chatFilter (db.messages ++ [newUserMsg db cid content atts]) cid =
      chatFilter db.messages cid ++ [newUserMsg db cid content atts] := by
    rw [chatFilter, chatFilter, List.filter_append]
    simp [newUserMsg]
  have hlenS : (orderByCreatedAsc (chatFilter
      (db.messages ++ [newUserMsg db cid content atts]) cid)).length ≤ 20 := by
    rw [orderByCreatedAsc, List.length_insertionSort, hCF]
    simp only [List.length_append, List.length_singleton]
    omega
  have hhist : fetchHistory (db.messages ++ [newUserMsg db cid content atts]) cid =
      orderByCreatedAsc (chatFilter (db.messages ++ [newUserMsg db cid content atts]) cid) := by
    rw [fetchHistory]
    exact List.take_of_length_le hlenS
  have hmemS : newUserMsg db cid content atts ∈ orderByCreatedAsc (chatFilter
      (db.messages ++ [newUserMsg db cid content atts]) cid) := by
    refine (List.mem_insertionSort _).mpr ?_
    rw [hCF]
    exact List.mem_append_right _ (List.mem_singleton_self _)
  have hmax : ∀ y ∈ orderByCreatedAsc (chatFilter
      (db.messages ++ [newUserMsg db cid content atts]) cid),
      y ≠ newUserMsg db cid content atts →
      y.created_at < (newUserMsg db cid content atts).created_at := by
    intro y hy hyne
    have hyF := (List.mem_insertionSort _).mp hy
    rw [hCF] at hyF
    rcases List.mem_append.mp hyF with hyo | hyn
    · exact hcrlt y (List.mem_of_mem_filter hyo)
    · rw [List.mem_singleton] at hyn
      exact absurd hyn hyne
  have hlast := getLast?_of_max _ _ hmemS (List.sorted_insertionSort createdAscLe _) hmax
  have hlen1 : 1 ≤ (fetchHistory (db.messages ++ [newUserMsg db cid content atts]) cid).length := by
    rw [hhist]
    refine Nat.one_le_iff_ne_zero.mpr fun h0 => ?_
    rw [List.length_eq_zero] at h0
    rw [h0] at hmemS
    cases hmemS
  have hdroplast : ((fetchHistory (db.messages ++ [newUserMsg db cid content atts]) cid).drop
      ((fetchHistory (db.messages ++ [newUserMsg db cid content atts]) cid).length - 10)).getLast? =
      some (newUserMsg db cid content atts) := by
    rw [getLast?_drop_of_lt _ _ (by omega), hhist]
    exact hlast
  have hmemdrop := List.mem_of_mem_getLast? (Option.mem_def.mpr hdroplast)
  exact List.mem_map.mpr ⟨_, hmemdrop, rfl⟩

/-- Witness for C7: empty chat, so after the commit the chat holds one
message and the fetch window covers it. -/
theorem send_message_prompt_duplicates_user_witness :
    db0.WF ∧ findChat db0 1 1 = some chat0 ∧ findTutor db0 chat0.tutor_id = some tutor0 ∧
    (chatFilter db0.messages 1).length + 1 ≤ 20 ∧
    (∃ P, (send_message db0 1 1 "Привет" none (Except.ok "ответ")).prompt = some P ∧
      P.getLast? = some (ChatEntry.mk "user" "Привет") ∧
      ChatEntry.mk "user" "Привет" ∈ P.dropLast) :=
  ⟨by decide, rfl, rfl, by decide,
    send_message_prompt_duplicates_user db0 1 1 "Привет" none (Except.ok "ответ")
      chat0 tutor0 (by decide) rfl rfl (by decide)⟩

/-- Tie behaviour of the embedded rounding: a mean of 4.625 (eight ratings
summing to 37) is stored as 4.62, matching Python's half-to-even `round`,
not 4.63. -/
theorem roundTo2_half_to_even : roundTo2 (37 / 8) = 462 / 100 ∧ roundTo2 (14 / 3) = 467 / 100 := by
  constructor <;> norm_num [roundTo2, roundHalfEven]
